import Mathlib

set_option maxRecDepth 100000

/-!
# Verification of the memecoin trading engine core

A shallow embedding, in Lean 4, of the risk manager, feature buffer, signal
derivation and execution engine of the Rust trading engine, together with
theorems settling the specification claims about them.

Conventions of the embedding:
* Rust f64 / f32 values are modelled as exact rationals (the algorithms are
  pure arithmetic; no NaN or infinity arises on the guarded paths modelled).
* std::time::Instant is modelled as a natural-number timestamp in seconds,
  passed explicitly wherever the Rust calls Instant::now().
* HashMap<String, Position> is modelled as an association list; its iteration
  order is the list order (a Rust HashMap iterates in an arbitrary,
  implementation-defined order, which the list order represents).
* Fallible Rust functions returning Result are modelled with Except.
* External services (RPC node, Jupiter aggregator, database) are modelled as
  an environment record of call results; database writes are recorded as an
  effect list.
-/

/-! ## types.rs -/

/-- Embeds struct TickData (types.rs): one observation of a market. -/
structure TickData where
  symbol : String
  price : ℚ
  volume : ℚ
deriving DecidableEq

/-- Embeds struct Signal (types.rs). -/
structure Signal where
  confidence : ℚ
deriving DecidableEq

/-- Embeds fn analyze_pattern (types.rs, lines 33-45): average the neighbor
similarity scores (0 when there are no neighbors), invert the anomaly score
into a factor, and clamp the product into the unit interval. The Prometheus
counter increment in the Rust body touches no modelled state and is omitted. -/
def analyze_pattern (similar : List (List ℚ × ℚ)) (score : ℚ) : Signal :=
  let avg_sim : ℚ :=
    if ¬ similar.isEmpty then
      (similar.map Prod.snd).sum / (similar.length : ℚ)
    else 0
  let anomaly_factor : ℚ := max (1 - score) 0
  let confidence : ℚ := min (max (avg_sim * anomaly_factor) 0) 1
  { confidence := confidence }

/-- Modelled from the spec (section 4.C, signal derivation): the average
similarity over the neighbor scores, 0 when there are none. -/
def spec_avg_sim (scores : List ℚ) : ℚ :=
  if scores = [] then 0 else scores.sum / (scores.length : ℚ)

/-- Modelled from the spec (section 4.C, signal derivation):
confidence = clamp(avg_sim * clamp(1 - a, 0, 1), 0, 1). -/
def spec_confidence (scores : List ℚ) (a : ℚ) : ℚ :=
  min (max (spec_avg_sim scores * min (max (1 - a) 0) 1) 0) 1

/-! ## feature_buffer.rs -/

/-- Embeds struct FeatureBuffer (feature_buffer.rs): a rolling window of
ticks ahead of feature extraction. -/
structure FeatureBuffer where
  window_size : ℕ
  data : List TickData
deriving DecidableEq

/-- Embeds FeatureBuffer::new: the window starts empty. -/
def FeatureBuffer.new (window_size : ℕ) : FeatureBuffer :=
  { window_size := window_size, data := [] }

/-- Embeds FeatureBuffer::push: append the tick; when the window exceeds the
configured size, Vec::remove(0) discards the oldest element. -/
def FeatureBuffer.push (b : FeatureBuffer) (tick : TickData) : FeatureBuffer :=
  let d := b.data ++ [tick]
  if b.window_size < d.length then { b with data := d.drop 1 }
  else { b with data := d }

/-- Embeds FeatureBuffer::is_ready: the window holds exactly window_size
ticks. -/
def FeatureBuffer.is_ready (b : FeatureBuffer) : Bool :=
  b.data.length == b.window_size

/-- Folds FeatureBuffer::push over a list of ticks (the per-tick loop in
main.rs, task 2). -/
def FeatureBuffer.pushMany (b : FeatureBuffer) (ticks : List TickData) : FeatureBuffer :=
  ticks.foldl FeatureBuffer.push b

/-! ## risk_manager.rs : configuration, position, portfolio -/

/-- Embeds struct RiskConfig (risk_manager.rs, lines 10-37). -/
structure RiskConfig where
  max_position_size_usd : ℚ
  max_position_pct_portfolio : ℚ
  max_leverage : ℚ
  hard_stop_loss_pct : ℚ
  trailing_stop_loss_pct : ℚ
  portfolio_stop_loss_pct : ℚ
  max_correlated_positions : ℕ
  max_total_positions : ℕ
  vol_target : ℚ
  vol_lookback_periods : ℕ
  max_daily_drawdown_pct : ℚ
  max_weekly_drawdown_pct : ℚ
  cooldown_after_loss_streak : ℕ
  cooldown_duration_minutes : ℕ
  kelly_fraction : ℚ
deriving DecidableEq

/-- Embeds impl Default for RiskConfig (risk_manager.rs, lines 39-59). -/
def RiskConfig.default : RiskConfig where
  max_position_size_usd := 1000
  max_position_pct_portfolio := 20/100
  max_leverage := 1
  hard_stop_loss_pct := 5/100
  trailing_stop_loss_pct := 3/100
  portfolio_stop_loss_pct := 15/100
  max_correlated_positions := 3
  max_total_positions := 5
  vol_target := 2/100
  vol_lookback_periods := 20
  max_daily_drawdown_pct := 15/100
  max_weekly_drawdown_pct := 25/100
  cooldown_after_loss_streak := 3
  cooldown_duration_minutes := 60
  kelly_fraction := 25/100

/-- Embeds struct Position (risk_manager.rs, lines 62-73). entry_time is the
timestamp at which Position::new ran. -/
structure Position where
  symbol : String
  entry_price : ℚ
  current_price : ℚ
  size : ℚ
  entry_time : ℕ
  peak_price : ℚ
  trailing_stop : ℚ
  unrealized_pnl : ℚ
  unrealized_pnl_pct : ℚ
deriving DecidableEq

/-- Embeds Position::new (risk_manager.rs, lines 76-88). Note the initial
trailing stop is hardcoded to 3% below entry regardless of the configured
trailing percentage. -/
def Position.new (symbol : String) (entry_price size : ℚ) (now : ℕ) : Position where
  symbol := symbol
  entry_price := entry_price
  current_price := entry_price
  size := size
  entry_time := now
  peak_price := entry_price
  trailing_stop := entry_price * (97/100)
  unrealized_pnl := 0
  unrealized_pnl_pct := 0

/-- Embeds Position::update_price (risk_manager.rs, lines 90-99). -/
def Position.update_price (pos : Position) (price : ℚ) : Position :=
  { pos with
    current_price := price
    unrealized_pnl := (price - pos.entry_price) * (pos.size / pos.entry_price)
    unrealized_pnl_pct := (price - pos.entry_price) / pos.entry_price
    peak_price := if pos.peak_price < price then price else pos.peak_price }

/-- Embeds Position::update_trailing_stop (risk_manager.rs, lines 101-103). -/
def Position.update_trailing_stop (pos : Position) (trailing_pct : ℚ) : Position :=
  { pos with trailing_stop := pos.peak_price * (1 - trailing_pct) }

/-- Embeds struct Portfolio (risk_manager.rs, lines 107-126). Instants are
timestamps in seconds. -/
structure Portfolio where
  starting_capital : ℚ
  current_capital : ℚ
  available_capital : ℚ
  total_pnl : ℚ
  daily_pnl : ℚ
  weekly_pnl : ℚ
  consecutive_losses : ℕ
  consecutive_wins : ℕ
  total_trades : ℕ
  winning_trades : ℕ
  losing_trades : ℕ
  day_start_capital : ℚ
  week_start_capital : ℚ
  day_start_time : ℕ
  week_start_time : ℕ
  last_loss_time : Option ℕ
  peak_capital : ℚ
deriving DecidableEq

/-- Embeds Portfolio::new (risk_manager.rs, lines 129-149). -/
def Portfolio.new (starting_capital : ℚ) (now : ℕ) : Portfolio where
  starting_capital := starting_capital
  current_capital := starting_capital
  available_capital := starting_capital
  total_pnl := 0
  daily_pnl := 0
  weekly_pnl := 0
  consecutive_losses := 0
  consecutive_wins := 0
  total_trades := 0
  winning_trades := 0
  losing_trades := 0
  day_start_capital := starting_capital
  week_start_capital := starting_capital
  day_start_time := now
  week_start_time := now
  last_loss_time := none
  peak_capital := starting_capital

/-- Embeds Portfolio::daily_pnl_pct. -/
def Portfolio.daily_pnl_pct (p : Portfolio) : ℚ := p.daily_pnl / p.day_start_capital

/-- Embeds Portfolio::weekly_pnl_pct. -/
def Portfolio.weekly_pnl_pct (p : Portfolio) : ℚ := p.weekly_pnl / p.week_start_capital

/-- Embeds enum RiskError (risk_manager.rs, lines 186-195). -/
inductive RiskError where
  | maxPositionsReached
  | drawdownLimitExceeded
  | lossStreakCooldown
  | extremeVolatility
  | positionSizeTooLarge
  | insufficientCapital
  | hardStopTriggered
  | trailingStopTriggered
deriving DecidableEq

/-! ## association-list model of HashMap<String, Position> -/

/-- HashMap::get: first binding of the key, if any. -/
def lookupAssoc (k : String) : List (String × Position) → Option Position
  | [] => none
  | (k', v) :: rest => if k' = k then some v else lookupAssoc k rest

/-- HashMap::contains_key. -/
def containsKeyAssoc (k : String) (l : List (String × Position)) : Bool :=
  (lookupAssoc k l).isSome

/-- HashMap::insert: replace the binding in place when the key is present,
otherwise add a binding. -/
def insertAssoc (k : String) (v : Position) : List (String × Position) → List (String × Position)
  | [] => [(k, v)]
  | (k', v') :: rest =>
    if k' = k then (k, v) :: rest else (k', v') :: insertAssoc k v rest

/-- HashMap::remove: drop the first binding of the key. -/
def removeAssoc (k : String) : List (String × Position) → List (String × Position)
  | [] => []
  | (k', v') :: rest =>
    if k' = k then rest else (k', v') :: removeAssoc k rest

/-! ## risk_manager.rs : RiskManager -/

/-- Embeds struct RiskManager (risk_manager.rs, lines 215-220). The
volatility cache plays no role in the claims and is omitted. -/
structure RiskManager where
  config : RiskConfig
  portfolio : Portfolio
  positions : List (String × Position)
deriving DecidableEq

/-- Embeds RiskManager::new (risk_manager.rs, lines 223-231). -/
def RiskManager.new (config : RiskConfig) (starting_capital : ℚ) (now : ℕ) : RiskManager where
  config := config
  portfolio := Portfolio.new starting_capital now
  positions := []

/-- Embeds RiskManager::calculate_position_size (risk_manager.rs, lines
234-275). The Rust function wraps the value in Ok and has no error path, so
the model returns the sized value directly. -/
def RiskManager.calculate_position_size (rm : RiskManager) (signal : Signal)
    (estimated_volatility : ℚ) : ℚ :=
  let win_rate := signal.confidence
  let win_loss_ratio : ℚ := 3/2
  let kelly := (win_rate * win_loss_ratio - (1 - win_rate)) / win_loss_ratio
  let kelly := max kelly 0
  let fractional_kelly := kelly * rm.config.kelly_fraction
  let vol_scalar : ℚ :=
    if 0 < estimated_volatility then min (rm.config.vol_target / estimated_volatility) 1
    else 1
  let available := rm.portfolio.available_capital
  let base_size := available * fractional_kelly * vol_scalar
  let max_pct_size := available * rm.config.max_position_pct_portfolio
  let max_abs_size := rm.config.max_position_size_usd
  min (min base_size max_pct_size) max_abs_size

/-- The inner cooldown test of RiskManager::validate_trade (risk_manager.rs,
lines 309-315): some loss was recorded and less than the cooldown duration
(in seconds) has elapsed since it. -/
def cooldownActive (last_loss_time : Option ℕ) (now cooldown_secs : ℕ) : Bool :=
  match last_loss_time with
  | some last_loss => if now - last_loss < cooldown_secs then true else false
  | none => false

/-- Embeds RiskManager::validate_trade (risk_manager.rs, lines 278-342).
now is the timestamp at which the Rust body evaluates Instant-elapsed
durations; cooldown durations are in seconds. -/
def RiskManager.validate_trade (rm : RiskManager) (_signal : Signal)
    (size estimated_volatility : ℚ) (now : ℕ) : Except RiskError Unit :=
  if rm.config.max_total_positions ≤ rm.positions.length then
    .error .maxPositionsReached
  else if rm.portfolio.daily_pnl_pct < -rm.config.max_daily_drawdown_pct then
    .error .drawdownLimitExceeded
  else if rm.portfolio.weekly_pnl_pct < -rm.config.max_weekly_drawdown_pct then
    .error .drawdownLimitExceeded
  else if rm.config.cooldown_after_loss_streak ≤ rm.portfolio.consecutive_losses ∧
      cooldownActive rm.portfolio.last_loss_time now (rm.config.cooldown_duration_minutes * 60) = true then
    .error .lossStreakCooldown
  else if (1/2 : ℚ) < estimated_volatility then
    .error .extremeVolatility
  else if rm.portfolio.available_capital < size then
    .error .insufficientCapital
  else if rm.config.max_position_size_usd < size then
    .error .positionSizeTooLarge
  else
    .ok ()

/-- Embeds RiskManager::open_position (risk_manager.rs, lines 345-357): build
the position, subtract its size from available capital, insert it into the
map (replacing any previous binding for the symbol), and return Ok. -/
def RiskManager.open_position (rm : RiskManager) (symbol : String)
    (entry_price size : ℚ) (now : ℕ) : Except String RiskManager :=
  let position := Position.new symbol entry_price size now
  .ok { rm with
        portfolio := { rm.portfolio with
                       available_capital := rm.portfolio.available_capital - size }
        positions := insertAssoc symbol position rm.positions }

/-- The per-position body of the loop in RiskManager::update_positions
(risk_manager.rs, lines 363-381): when the price map carries a price for the
symbol, refresh the position and report which stop, if any, fired. -/
def stepPosition (cfg : RiskConfig) (prices : String → Option ℚ)
    (sym : String) (pos : Position) : Position × Option String :=
  match prices sym with
  | none => (pos, none)
  | some price =>
    let pos := pos.update_price price
    let pos := pos.update_trailing_stop cfg.trailing_stop_loss_pct
    if pos.unrealized_pnl_pct < -cfg.hard_stop_loss_pct then
      (pos, some "hard_stop")
    else if price < pos.trailing_stop then
      (pos, some "trailing_stop")
    else
      (pos, none)

/-- The iteration of RiskManager::update_positions over the position map, in
the map's iteration order. -/
def updatePositionsList (cfg : RiskConfig) (prices : String → Option ℚ) :
    List (String × Position) → List (String × Position) × List (String × String)
  | [] => ([], [])
  | (sym, pos) :: rest =>
    let step := stepPosition cfg prices sym pos
    let tail := updatePositionsList cfg prices rest
    (⟨sym, step.1⟩ :: tail.1,
     (match step.2 with
      | some reason => [(sym, reason)]
      | none => []) ++ tail.2)

/-- Embeds RiskManager::update_positions (risk_manager.rs, lines 360-385):
apply current prices to every open position and collect the
(symbol, stop-reason) pairs that fired, in iteration order. -/
def RiskManager.update_positions (rm : RiskManager) (prices : String → Option ℚ) :
    RiskManager × List (String × String) :=
  let result := updatePositionsList rm.config prices rm.positions
  ({ rm with positions := result.1 }, result.2)

/-- Embeds RiskManager::close_position (risk_manager.rs, lines 388-427). The
exit reason is only logged in Rust and does not affect state. -/
def RiskManager.close_position (rm : RiskManager) (symbol : String)
    (exit_price : ℚ) (now : ℕ) : Except String (RiskManager × ℚ) :=
  match lookupAssoc symbol rm.positions with
  | none => .error ("Position not found: " ++ symbol)
  | some position =>
    let positions := removeAssoc symbol rm.positions
    let pnl := (exit_price - position.entry_price) * (position.size / position.entry_price)
    let p := rm.portfolio
    let p := { p with
               available_capital := p.available_capital + position.size + pnl
               current_capital := p.current_capital + pnl
               total_pnl := p.total_pnl + pnl
               daily_pnl := p.daily_pnl + pnl
               weekly_pnl := p.weekly_pnl + pnl
               total_trades := p.total_trades + 1 }
    let p :=
      if 0 < pnl then
        { p with
          winning_trades := p.winning_trades + 1
          consecutive_wins := p.consecutive_wins + 1
          consecutive_losses := 0 }
      else
        { p with
          losing_trades := p.losing_trades + 1
          consecutive_losses := p.consecutive_losses + 1
          consecutive_wins := 0
          last_loss_time := some now }
    let p :=
      if p.peak_capital < p.current_capital then
        { p with peak_capital := p.current_capital }
      else p
    .ok ({ rm with portfolio := p, positions := positions }, pnl)

/-! ## execution.rs -/

/-- Embeds struct ExecutionConfig (execution.rs, lines 30-37). -/
structure ExecutionConfig where
  max_slippage_bps : ℕ
  max_price_impact_bps : ℕ
  priority_fee_lamports : ℕ
  sol_mint : String
  confirmation_timeout_sec : ℕ
deriving DecidableEq

/-- Embeds impl Default for ExecutionConfig (execution.rs, lines 39-49). -/
def ExecutionConfig.default : ExecutionConfig where
  max_slippage_bps := 50
  max_price_impact_bps := 100
  priority_fee_lamports := 5000
  sol_mint := "So11111111111111111111111111111111111111112"
  confirmation_timeout_sec := 60

/-- The fields of the Jupiter quote response that execute_buy reads. -/
structure Quote where
  in_amount : ℕ
  out_amount : ℕ
  price_impact_pct : ℚ
deriving DecidableEq

/-- Embeds struct ExecutionResult (execution.rs, lines 322-330); the Instant
based latency field is not modelled. -/
structure ExecutionResult where
  signature : String
  entry_price : ℚ
  amount : ℚ
  size_usd : ℚ
  position_id : Int
deriving DecidableEq

/-- A database write performed by the execution engine (database.rs calls
made from execute_buy). -/
inductive DbEffect where
  | insertPosition (symbol : String) (mint_address : Option String)
      (entry_price size_usd confidence : ℚ)
  | insertTrade (trade_type symbol : String) (price size_usd : ℚ)
      (signature : Option String) (position_id : Option Int)
deriving DecidableEq

/-- The environment of one execute_buy run: the results the external
collaborators (RPC node, Jupiter aggregator, database id allocation) return
when called. A field holding .error models that call failing. -/
structure BuyEnv where
  sol_balance : Except String ℚ
  quote : Except String Quote
  swap_transaction : Except String String
  send_signature : Except String String
  position_id : Int

/-- Embeds ExecutionEngine::execute_buy (execution.rs, lines 77-184) over the
call environment. Returns the Rust return value, the risk manager after the
run (the Rust engine holds it behind a mutex), and the database writes made.
The construction of the quote and swap HTTP requests is abstracted into env;
database inserts are modelled as succeeding. The hardcoded 0.02 volatility
placeholder and the entry price derived from the quote amounts are as in the
source. -/
def execute_buy (rm : RiskManager) (_config : ExecutionConfig) (signal : Signal)
    (symbol mint_address : String) (env : BuyEnv) (now : ℕ) :
    Except String ExecutionResult × RiskManager × List DbEffect :=
  let volatility : ℚ := 2/100
  let size_usd := rm.calculate_position_size signal volatility
  match rm.validate_trade signal size_usd volatility now with
  | .error _ => (.error "Risk validation failed", rm, [])
  | .ok _ =>
    match env.sol_balance with
    | .error e => (.error e, rm, [])
    | .ok sol_balance =>
      let _sol_to_spend := (size_usd / sol_balance) * sol_balance
      match env.quote with
      | .error e => (.error e, rm, [])
      | .ok quote =>
        match env.swap_transaction with
        | .error e => (.error e, rm, [])
        | .ok _swap_tx =>
          match env.send_signature with
          | .error e => (.error e, rm, [])
          | .ok signature =>
            let entry_price := (quote.in_amount : ℚ) / (quote.out_amount : ℚ)
            let position_size_usd := size_usd
            match rm.open_position symbol entry_price position_size_usd now with
            | .error e => (.error e, rm, [])
            | .ok rm' =>
              let position_id := env.position_id
              let effects : List DbEffect :=
                [ .insertPosition symbol (some mint_address) entry_price
                    position_size_usd signal.confidence,
                  .insertTrade "buy" symbol entry_price position_size_usd
                    (some signature) (some position_id) ]
              (.ok { signature := signature
                     entry_price := entry_price
                     amount := (quote.out_amount : ℚ)
                     size_usd := position_size_usd
                     position_id := position_id },
               rm', effects)

/-! ## Proof-harness definitions: derived operations and concrete fixtures -/

/-- One tick update step applied to a position inside
RiskManager::update_positions: update_price then update_trailing_stop with
the configured trailing percentage. -/
def updStep (t : ℚ) (pos : Position) (price : ℚ) : Position :=
  (pos.update_price price).update_trailing_stop t

/-- The trajectory of a position along a sequence of tick-update steps
(each state of the position after successive updates, first state
included). -/
def trailTrack (t : ℚ) (pos : Position) : List ℚ → List Position
  | [] => [pos]
  | p :: ps => pos :: trailTrack t (updStep t pos p) ps

/-- A fresh risk manager over the default configuration with the capital of
spec scenario S2. -/
def rmS2 : RiskManager := RiskManager.new RiskConfig.default 10000 0

/-- The warm-up tick sequence of spec scenario S1, one more tick appended. -/
def ticksS1 : List TickData :=
  [⟨"SOL", 100, 1⟩, ⟨"SOL", 101, 1⟩, ⟨"SOL", 102, 2⟩, ⟨"SOL", 103, 2⟩]

/-- Risk manager holding one open position, with a trailing percentage of
10% configured (a legal configuration: the claim quantifies over trailing
percentages in (0,1)). -/
def rmC2 : RiskManager where
  config := { RiskConfig.default with trailing_stop_loss_pct := 10/100 }
  portfolio := Portfolio.new 10000 0
  positions := [("TOK", Position.new "TOK" 100 500 0)]

/-- Risk manager over the default configuration holding one open
position. -/
def rmTOK : RiskManager where
  config := RiskConfig.default
  portfolio := Portfolio.new 10000 0
  positions := [("TOK", Position.new "TOK" 100 500 0)]

/-- Price map quoting 95 for TOK: exactly at entry * (1 - hard_stop_loss_pct)
for an entry price of 100 under the default 5% hard stop. -/
def pricesC2 : String → Option ℚ := fun s => if s = "TOK" then some 95 else none

/-- Price map quoting 90 for TOK. -/
def pricesTOK90 : String → Option ℚ := fun s => if s = "TOK" then some 90 else none

/-- Risk manager holding an open position on SOL, with the 500 USD reserved
for it already subtracted from available capital. -/
def rmC3 : RiskManager where
  config := RiskConfig.default
  portfolio := { Portfolio.new 10000 0 with available_capital := 9500 }
  positions := [("SOL", Position.new "SOL" 1 500 0)]

/-- Risk manager holding two open positions whose map iteration order lists
instrument B before instrument A. -/
def rmC8 : RiskManager where
  config := RiskConfig.default
  portfolio := Portfolio.new 10000 0
  positions := [("B", Position.new "B" 100 100 0), ("A", Position.new "A" 100 100 0)]

/-- A buy environment in which every external call succeeds and the quote
carries a price impact of 5 (far above the configured 100 bps limit). -/
def envC7 : BuyEnv where
  sol_balance := .ok 10
  quote := .ok { in_amount := 1000000000, out_amount := 500000, price_impact_pct := 5 }
  swap_transaction := .ok "tx"
  send_signature := .ok "SIG"
  position_id := 1

/-- Risk manager with 100 available capital holding one open SOL
position. -/
def rm9 : RiskManager where
  config := RiskConfig.default
  portfolio := { Portfolio.new 100 0 with available_capital := 100 }
  positions := [("SOL", Position.new "SOL" 1 500 0)]

/-! ## Theorems -/

/-- C1: for every signal with confidence p in the unit interval and every
estimated volatility v > 0, RiskManager::calculate_position_size returns
min(available * max(0, (p*1.5 - (1-p))/1.5) * kelly_fraction *
min(1, vol_target/v), max_position_pct_portfolio * available,
max_position_size_usd). -/
theorem calculate_position_size_formula (rm : RiskManager) (p v : ℚ)
    (_hp0 : 0 ≤ p) (_hp1 : p ≤ 1) (hv : 0 < v) :
    rm.calculate_position_size ⟨p⟩ v =
      min (min (rm.portfolio.available_capital *
                  max 0 ((p * (3/2) - (1 - p)) / (3/2)) *
                  rm.config.kelly_fraction *
                  min 1 (rm.config.vol_target / v))
               (rm.config.max_position_pct_portfolio * rm.portfolio.available_capital))
          rm.config.max_position_size_usd := by
  simp only [RiskManager.calculate_position_size, if_pos hv]
  rw [max_comm, min_comm (rm.config.vol_target / v) 1,
      mul_comm rm.portfolio.available_capital rm.config.max_position_pct_portfolio]
  ring_nf

/-- Witness for C1 at spec scenario S2: available capital 10000, confidence
0.80, volatility 0.02 under the default configuration; the size is capped by
max_position_size_usd at 1000. -/
theorem calculate_position_size_formula_witness :
    0 ≤ (4 : ℚ)/5 ∧ (4 : ℚ)/5 ≤ 1 ∧ 0 < (1 : ℚ)/50 ∧
    rmS2.calculate_position_size ⟨4/5⟩ (1/50) = 1000 :=
  ⟨by norm_num, by norm_num, by norm_num,
   (calculate_position_size_formula rmS2 (4/5) (1/50) (by norm_num) (by norm_num)
     (by norm_num)).trans
     (by norm_num [rmS2, RiskManager.new, Portfolio.new, RiskConfig.default,
                   min_def, max_def])⟩

/-- FeatureBuffer::push leaves the configured window size unchanged. -/
theorem FeatureBuffer.push_window_size (b : FeatureBuffer) (t : TickData) :
    (b.push t).window_size = b.window_size := by
  simp only [FeatureBuffer.push]
  split <;> rfl

/-- FeatureBuffer::pushMany leaves the configured window size unchanged. -/
theorem FeatureBuffer.pushMany_window_size (ts : List TickData) (b : FeatureBuffer) :
    (b.pushMany ts).window_size = b.window_size := by
  induction ts generalizing b with
  | nil => rfl
  | cons t ts ih =>
    simp only [FeatureBuffer.pushMany, List.foldl_cons] at ih ⊢
    rw [ih, FeatureBuffer.push_window_size]

/-- The window length after a sequence of pushes is the number of ticks
pushed so far, capped at the window size. -/
theorem FeatureBuffer.pushMany_data_length (ts : List TickData) (b : FeatureBuffer)
    (h : b.data.length ≤ b.window_size) :
    (b.pushMany ts).data.length = min (b.data.length + ts.length) b.window_size := by
  induction ts generalizing b with
  | nil =>
    simpa [FeatureBuffer.pushMany] using (Nat.min_eq_left h).symm
  | cons t ts ih =>
    simp only [FeatureBuffer.pushMany, List.foldl_cons] at ih ⊢
    rcases Nat.lt_or_ge b.window_size (b.data.length + 1) with hfull | hroom
    · have hlen : b.data.length = b.window_size := le_antisymm h (Nat.lt_succ_iff.mp hfull)
      have hpush : (b.push t).data.length = b.window_size := by
        simp only [FeatureBuffer.push]
        rw [if_pos (by simpa using hfull)]
        simp only [List.length_drop, List.length_append, List.length_cons, List.length_nil]
        omega
      rw [ih (b.push t) (by rw [hpush, FeatureBuffer.push_window_size]),
          FeatureBuffer.push_window_size, hpush, hlen]
      simp only [List.length_cons]
      omega
    · have hpush : (b.push t).data.length = b.data.length + 1 := by
        simp only [FeatureBuffer.push]
        rw [if_neg (by
          simp only [List.length_append, List.length_cons, List.length_nil]
          omega)]
        simp
      rw [ih (b.push t) (by rw [hpush, FeatureBuffer.push_window_size]; exact hroom),
          FeatureBuffer.push_window_size, hpush]
      simp only [List.length_cons]
      omega

/-- C5: for every window size W >= 1 and every tick sequence, the buffer is
not ready (and so yields no feature tensor in the per-tick loop) for the
first W-1 pushes, becomes ready exactly from the W-th push onward (one tensor
per push from then on), and its window length is capped at W. -/
theorem feature_buffer_emission (W : ℕ) (_hW : 1 ≤ W) (ts : List TickData) :
    (∀ k, k ≤ ts.length →
      (((FeatureBuffer.new W).pushMany (ts.take k)).is_ready = true ↔ W ≤ k)) ∧
    ((FeatureBuffer.new W).pushMany ts).data.length = min ts.length W := by
  constructor
  · intro k hk
    have htake : (ts.take k).length = k := by
      simpa using Nat.min_eq_left hk
    have hlen : ((FeatureBuffer.new W).pushMany (ts.take k)).data.length = min k W := by
      have hgen := FeatureBuffer.pushMany_data_length (ts.take k) (FeatureBuffer.new W)
        (by simp [FeatureBuffer.new])
      simpa [FeatureBuffer.new, htake] using hgen
    rw [FeatureBuffer.is_ready, beq_iff_eq, FeatureBuffer.pushMany_window_size, hlen]
    simp only [FeatureBuffer.new]
    omega
  · have hlen := FeatureBuffer.pushMany_data_length ts (FeatureBuffer.new W)
      (by simp [FeatureBuffer.new])
    simpa [FeatureBuffer.new] using hlen

/-- Witness for C5 at spec scenario S1 (window size 3, four ticks): not ready
after 2 pushes, ready after 3 and after 4, window length capped at 3. -/
theorem feature_buffer_emission_witness :
    1 ≤ 3 ∧
    (((FeatureBuffer.new 3).pushMany (ticksS1.take 2)).is_ready = true ↔ 3 ≤ 2) ∧
    (((FeatureBuffer.new 3).pushMany (ticksS1.take 3)).is_ready = true ↔ 3 ≤ 3) ∧
    ((FeatureBuffer.new 3).pushMany ticksS1).data.length = min 4 3 :=
  ⟨by norm_num,
   (feature_buffer_emission 3 (by norm_num) ticksS1).1 2 (by norm_num [ticksS1]),
   (feature_buffer_emission 3 (by norm_num) ticksS1).1 3 (by norm_num [ticksS1]),
   (feature_buffer_emission 3 (by norm_num) ticksS1).2⟩

/-- The confidence computed by analyze_pattern, written over the scores of
the neighbor list. -/
theorem analyze_pattern_confidence_eq (similar : List (List ℚ × ℚ)) (score : ℚ) :
    (analyze_pattern similar score).confidence =
      min (max (spec_avg_sim (similar.map Prod.snd) * max (1 - score) 0) 0) 1 := by
  rcases similar with _ | ⟨hd, tl⟩
  · simp [analyze_pattern, spec_avg_sim]
  · simp [analyze_pattern, spec_avg_sim]

/-- C6: for every neighbor list and every anomaly score a >= 0 the derived
confidence equals the spec formula clamp(mean * clamp(1 - a, 0, 1), 0, 1)
(mean taken as 0 with no neighbors); the confidence always lies in [0,1], is
monotone non-decreasing in the mean neighbor similarity and monotone
non-increasing in the anomaly score. -/
theorem analyze_pattern_props (similar : List (List ℚ × ℚ)) (a : ℚ) :
    (0 ≤ a →
      (analyze_pattern similar a).confidence = spec_confidence (similar.map Prod.snd) a) ∧
    0 ≤ (analyze_pattern similar a).confidence ∧
    (analyze_pattern similar a).confidence ≤ 1 ∧
    (∀ similar2 : List (List ℚ × ℚ),
      spec_avg_sim (similar.map Prod.snd) ≤ spec_avg_sim (similar2.map Prod.snd) →
      (analyze_pattern similar a).confidence ≤ (analyze_pattern similar2 a).confidence) ∧
    (∀ a2, a ≤ a2 →
      (analyze_pattern similar a2).confidence ≤ (analyze_pattern similar a).confidence) := by
  refine ⟨?_, ?_, ?_, ?_, ?_⟩
  · intro ha
    rw [analyze_pattern_confidence_eq, spec_confidence]
    have hle : max (1 - a) 0 ≤ 1 := max_le (by linarith) (by norm_num)
    rw [min_eq_left hle]
  · rw [analyze_pattern_confidence_eq]
    exact le_min (le_max_right _ _) (by norm_num)
  · rw [analyze_pattern_confidence_eq]
    exact min_le_right _ _
  · intro similar2 hmean
    rw [analyze_pattern_confidence_eq, analyze_pattern_confidence_eq]
    have haf : (0 : ℚ) ≤ max (1 - a) 0 := le_max_right _ _
    exact min_le_min (max_le_max (mul_le_mul_of_nonneg_right hmean haf) le_rfl) le_rfl
  · intro a2 ha2
    rw [analyze_pattern_confidence_eq, analyze_pattern_confidence_eq]
    have haf : max (1 - a2) 0 ≤ max (1 - a) 0 := max_le_max (by linarith) le_rfl
    rcases le_or_lt 0 (spec_avg_sim (similar.map Prod.snd)) with hm | hm
    · exact min_le_min (max_le_max (mul_le_mul_of_nonneg_left haf hm) le_rfl) le_rfl
    · have h1 : spec_avg_sim (similar.map Prod.snd) * max (1 - a2) 0 ≤ 0 :=
        mul_nonpos_of_nonpos_of_nonneg (le_of_lt hm) (le_max_right _ _)
      have h2 : spec_avg_sim (similar.map Prod.snd) * max (1 - a) 0 ≤ 0 :=
        mul_nonpos_of_nonpos_of_nonneg (le_of_lt hm) (le_max_right _ _)
      rw [max_eq_right h1, max_eq_right h2]

/-- Witness for C6 at a one-neighbor list with similarity 3/4 and anomaly
score 1/2: the spec formula agrees, and both monotonicity facts hold at a
second neighbor list with mean 9/10 and a larger anomaly score 3/4. -/
theorem analyze_pattern_props_witness :
    (analyze_pattern [([], (3 : ℚ)/4)] (1/2)).confidence = spec_confidence [(3 : ℚ)/4] (1/2) ∧
    (analyze_pattern [([], (3 : ℚ)/4)] (1/2)).confidence ≤
      (analyze_pattern [([], (9 : ℚ)/10)] (1/2)).confidence ∧
    (analyze_pattern [([], (3 : ℚ)/4)] (3/4)).confidence ≤
      (analyze_pattern [([], (3 : ℚ)/4)] (1/2)).confidence :=
  ⟨(analyze_pattern_props [([], (3 : ℚ)/4)] (1/2)).1 (by norm_num),
   (analyze_pattern_props [([], (3 : ℚ)/4)] (1/2)).2.2.2.1 [([], (9 : ℚ)/10)]
     (by norm_num [spec_avg_sim]),
   (analyze_pattern_props [([], (3 : ℚ)/4)] (1/2)).2.2.2.2 (3/4) (by norm_num)⟩

/-- One tick-update step never lowers the recorded peak price. -/
theorem updStep_peak_mono (t : ℚ) (pos : Position) (price : ℚ) :
    pos.peak_price ≤ (updStep t pos price).peak_price := by
  simp only [updStep, Position.update_trailing_stop, Position.update_price]
  split
  · exact le_of_lt (by assumption)
  · exact le_rfl

/-- After a tick-update step the trailing stop is the updated peak price
scaled by (1 - trailing_pct). -/
theorem updStep_trailing_eq (t : ℚ) (pos : Position) (price : ℚ) :
    (updStep t pos price).trailing_stop = (updStep t pos price).peak_price * (1 - t) :=
  rfl

/-- Along any trajectory of tick-update steps starting from a position whose
trailing stop already equals peak * (1 - trailing_pct), the trailing stop
never decreases (for trailing_pct <= 1). -/
theorem trailTrack_chain (t : ℚ) (ht : 0 ≤ 1 - t) (ps : List ℚ) :
    ∀ pos : Position, pos.trailing_stop = pos.peak_price * (1 - t) →
    List.Chain' (fun a b => a.trailing_stop ≤ b.trailing_stop) (trailTrack t pos ps) := by
  induction ps with
  | nil =>
    intro pos _
    simp [trailTrack]
  | cons p ps ih =>
    intro pos hinv
    have hstep : pos.trailing_stop ≤ (updStep t pos p).trailing_stop := by
      rw [hinv, updStep_trailing_eq]
      exact mul_le_mul_of_nonneg_right (updStep_peak_mono t pos p) ht
    have hcons : ∃ rest, trailTrack t (updStep t pos p) ps = updStep t pos p :: rest := by
      cases ps <;> exact ⟨_, rfl⟩
    obtain ⟨rest, hrest⟩ := hcons
    have htail := ih (updStep t pos p) (updStep_trailing_eq t pos p)
    simp only [trailTrack, hrest] at htail ⊢
    exact List.Chain'.cons hstep htail

/-- C4 (amended): for every trailing percentage in (0,1) and every newly
opened position, from the first tick update onward the trailing stop never
decreases along any sequence of price updates. (As created, before any
update, the position carries the hardcoded level entry * 0.97, which the
first update may undercut when trailing_pct > 3%; see the counterexample.) -/
theorem trailing_stop_monotone (t : ℚ) (_ht0 : 0 < t) (ht1 : t < 1)
    (sym : String) (entry size : ℚ) (now : ℕ) (p0 : ℚ) (ps : List ℚ) :
    List.Chain' (fun a b => a.trailing_stop ≤ b.trailing_stop)
      (trailTrack t (updStep t (Position.new sym entry size now) p0) ps) :=
  trailTrack_chain t (by linarith) ps _
    (updStep_trailing_eq t (Position.new sym entry size now) p0)

/-- Witness for C4 (amended) at trailing percentage 5%, entry price 100 and
the price path 101, 99, 102. -/
theorem trailing_stop_monotone_witness :
    List.Chain' (fun a b => a.trailing_stop ≤ b.trailing_stop)
      (trailTrack (1/20) (updStep (1/20) (Position.new "TOK" 100 500 0) 101) [99, 102]) :=
  trailing_stop_monotone (1/20) (by norm_num) (by norm_num) "TOK" 100 500 0 101 [99, 102]

/-- C4 counterexample: with the configured trailing percentage 1/10 (inside
(0,1)) and entry price 100, the position is created with trailing stop
100 * 0.97 = 97, and the very first price update (at the entry price itself)
lowers the trailing stop to 100 * 0.9 = 90 < 97; so the trailing stop level
decreased across an update while the position stayed open, refuting the
claim as stated. -/
theorem trailing_stop_decrease_cx :
    0 < (1 : ℚ)/10 ∧ (1 : ℚ)/10 < 1 ∧
    (updStep (1/10) (Position.new "TOK" 100 500 0) 100).trailing_stop <
      (Position.new "TOK" 100 500 0).trailing_stop := by
  refine ⟨by norm_num, by norm_num, ?_⟩
  norm_num [updStep, Position.new, Position.update_price, Position.update_trailing_stop]

/-- The Rust peak update (replace the peak only when the new price strictly
exceeds it) computes the maximum of the old peak and the new price. -/
theorem peak_update_eq_max (a b : ℚ) : (if a < b then b else a) = max a b := by
  rcases lt_or_le a b with h | h
  · rw [if_pos h, max_eq_right (le_of_lt h)]
  · rw [if_neg (not_lt.mpr h), max_eq_left h]

/-- When the price sits strictly below entry * (1 - hard_stop_loss_pct), the
per-position step of update_positions reports a hard stop. -/
theorem stepPosition_hard (cfg : RiskConfig) (prices : String → Option ℚ)
    (sym : String) (pos : Position) (p : ℚ) (hp : prices sym = some p)
    (he : 0 < pos.entry_price)
    (h : p < pos.entry_price * (1 - cfg.hard_stop_loss_pct)) :
    (stepPosition cfg prices sym pos).2 = some "hard_stop" := by
  simp only [stepPosition, hp]
  have hpct : (p - pos.entry_price) / pos.entry_price < -cfg.hard_stop_loss_pct := by
    rw [div_lt_iff₀ he]
    nlinarith
  simp only [Position.update_trailing_stop, Position.update_price]
  rw [if_pos hpct]

/-- When the hard-stop condition fails but the price sits strictly below the
updated trailing level max(peak, price) * (1 - trailing_stop_loss_pct), the
per-position step of update_positions reports a trailing stop. -/
theorem stepPosition_trailing (cfg : RiskConfig) (prices : String → Option ℚ)
    (sym : String) (pos : Position) (p : ℚ) (hp : prices sym = some p)
    (he : 0 < pos.entry_price)
    (hnothard : ¬ p < pos.entry_price * (1 - cfg.hard_stop_loss_pct))
    (h : p < max pos.peak_price p * (1 - cfg.trailing_stop_loss_pct)) :
    (stepPosition cfg prices sym pos).2 = some "trailing_stop" := by
  simp only [stepPosition, hp]
  have hpct : ¬ (p - pos.entry_price) / pos.entry_price < -cfg.hard_stop_loss_pct := by
    rw [div_lt_iff₀ he]
    intro hcon
    exact hnothard (by nlinarith)
  simp only [Position.update_trailing_stop, Position.update_price]
  rw [if_neg hpct, if_pos (by rw [peak_update_eq_max]; exact h)]

/-- Every stop reported by the per-position step for a position in the map
appears in the list returned by update_positions. -/
theorem mem_updatePositionsList (cfg : RiskConfig) (prices : String → Option ℚ)
    (l : List (String × Position)) (sym : String) (pos : Position)
    (hmem : (sym, pos) ∈ l) (r : String)
    (hr : (stepPosition cfg prices sym pos).2 = some r) :
    (sym, r) ∈ (updatePositionsList cfg prices l).2 := by
  induction l with
  | nil => cases hmem
  | cons hd tl ih =>
    rcases List.mem_cons.mp hmem with heq | htl
    · subst heq
      simp only [updatePositionsList, hr]
      exact List.mem_append_left _ (List.mem_singleton_self _)
    · simp only [updatePositionsList]
      exact List.mem_append_right _ (ih htl)

/-- C2 (amended): for every open position carried by the map and every tick
update quoting a price for it, if the price is strictly below
entry * (1 - hard_stop_loss_pct) the update reports a hard_stop for that
position (also when the trailing condition holds as well: the hard stop takes
priority); otherwise, if the price is strictly below the updated trailing
level max(peak, price) * (1 - trailing_stop_loss_pct), the update reports a
trailing_stop. Prices exactly at either level do not fire (the Rust
comparisons are strict); see the counterexample for the boundary. -/
theorem update_positions_stop_reported (rm : RiskManager) (prices : String → Option ℚ)
    (sym : String) (pos : Position) (p : ℚ)
    (hmem : (sym, pos) ∈ rm.positions) (hp : prices sym = some p)
    (he : 0 < pos.entry_price) :
    (p < pos.entry_price * (1 - rm.config.hard_stop_loss_pct) →
      (sym, "hard_stop") ∈ (rm.update_positions prices).2) ∧
    (¬ p < pos.entry_price * (1 - rm.config.hard_stop_loss_pct) →
      p < max pos.peak_price p * (1 - rm.config.trailing_stop_loss_pct) →
      (sym, "trailing_stop") ∈ (rm.update_positions prices).2) := by
  constructor
  · intro hhard
    exact mem_updatePositionsList rm.config prices rm.positions sym pos hmem _
      (stepPosition_hard rm.config prices sym pos p hp he hhard)
  · intro hnothard htrail
    exact mem_updatePositionsList rm.config prices rm.positions sym pos hmem _
      (stepPosition_trailing rm.config prices sym pos p hp he hnothard htrail)

/-- Witness for C2 (amended): under the default configuration, a position
entered at 100 quoted at 90 (strictly below the hard-stop level 95) is
reported as a hard_stop in that update. -/
theorem update_positions_stop_reported_witness :
    ("TOK", Position.new "TOK" 100 500 0) ∈ rmTOK.positions ∧
    pricesTOK90 "TOK" = some 90 ∧
    0 < (Position.new "TOK" 100 500 0).entry_price ∧
    (90 : ℚ) < (Position.new "TOK" 100 500 0).entry_price *
      (1 - rmTOK.config.hard_stop_loss_pct) ∧
    ("TOK", "hard_stop") ∈ (rmTOK.update_positions pricesTOK90).2 :=
  ⟨by with_unfolding_all decide, by with_unfolding_all decide,
   by with_unfolding_all decide, by with_unfolding_all decide,
   (update_positions_stop_reported rmTOK pricesTOK90 "TOK"
     (Position.new "TOK" 100 500 0) 90 (by with_unfolding_all decide)
     (by with_unfolding_all decide) (by with_unfolding_all decide)).1
     (by with_unfolding_all decide)⟩

/-- C2 counterexample: with a configured 10% trailing stop and 5% hard stop,
a position entered at 100 and quoted at exactly 95 = entry * (1 - 0.05)
satisfies the claim's at-or-below hard-stop condition, yet update_positions
reports no stop at all for that update: the Rust hard-stop comparison is
strict, and the trailing level 90 lies below the price. -/
theorem update_positions_boundary_no_stop :
    ("TOK", Position.new "TOK" 100 500 0) ∈ rmC2.positions ∧
    pricesC2 "TOK" = some 95 ∧
    (95 : ℚ) ≤ (Position.new "TOK" 100 500 0).entry_price *
      (1 - rmC2.config.hard_stop_loss_pct) ∧
    (rmC2.update_positions pricesC2).2 = [] := by
  refine ⟨by with_unfolding_all decide, by with_unfolding_all decide,
    by with_unfolding_all decide, ?_⟩
  with_unfolding_all decide

/-- The stops collected by the update loop follow the iteration order of the
position map: their instrument ids form a sublist of the map's key
sequence. -/
theorem updatePositionsList_stops_sublist (cfg : RiskConfig) (prices : String → Option ℚ)
    (l : List (String × Position)) :
    List.Sublist ((updatePositionsList cfg prices l).2.map Prod.fst) (l.map Prod.fst) := by
  induction l with
  | nil => simp [updatePositionsList]
  | cons hd tl ih =>
    simp only [updatePositionsList, List.map_cons]
    rcases hmatch : (stepPosition cfg prices hd.1 hd.2).2 with _ | r
    · simp only [List.nil_append]
      exact List.Sublist.cons hd.1 ih
    · simp only [List.singleton_append, List.map_cons]
      exact List.Sublist.cons₂ hd.1 ih

/-- C8 (amended): the (instrument, reason) pairs returned by one tick update
are emitted in the iteration order of the position map, with no sorting
applied: their instrument ids always form a sublist of the map's key
sequence in map order. Since a Rust HashMap iterates in an arbitrary order,
the output order is whatever the map's order happens to be, not
instrument_id-ascending; the counterexample exhibits a map order on which
both stops fire and the output is strictly descending. -/
theorem update_positions_stops_follow_map_order (rm : RiskManager)
    (prices : String → Option ℚ) :
    List.Sublist ((rm.update_positions prices).2.map Prod.fst)
      (rm.positions.map Prod.fst) :=
  updatePositionsList_stops_sublist rm.config prices rm.positions

/-- C8 counterexample: a position map listing instrument B before A, both
stopped out by the same tick update, yields the stop list
[(B, hard_stop), (A, hard_stop)], which is not ordered by instrument_id
ascending (A < B lexicographically). -/
theorem update_positions_stops_not_sorted :
    (rmC8.update_positions (fun _ => some 90)).2 =
      [("B", "hard_stop"), ("A", "hard_stop")] ∧
    ("A" : String) < "B" := by
  constructor
  · with_unfolding_all decide
  · with_unfolding_all decide

/-- C3: RiskManager::validate_trade consults only the number of open
positions, never their instruments: with an open SOL position in the map
(and every other limit satisfied), a new SOL trade of size 100 at 2%
volatility still validates Ok instead of being rejected. -/
theorem validate_trade_ignores_duplicate_instrument :
    containsKeyAssoc "SOL" rmC3.positions = true ∧
    rmC3.validate_trade ⟨9/10⟩ 100 (1/50) 0 = .ok () := by
  constructor
  · with_unfolding_all decide
  · with_unfolding_all rfl

/-- C7: ExecutionEngine::execute_buy never compares the quoted price impact
against max_price_impact_bps: with the default limits (100 bps) and a quote
whose price impact is 5 (far above the limit in any unit reading), the buy
still succeeds end to end, a position for the symbol is opened in the risk
manager, and the database writes are exactly the position row and the buy
trade record. -/
theorem execute_buy_ignores_price_impact :
    (ExecutionConfig.default.max_price_impact_bps : ℚ) / 10000 < 5 ∧
    envC7.quote = .ok { in_amount := 1000000000, out_amount := 500000, price_impact_pct := 5 } ∧
    (execute_buy rmS2 ExecutionConfig.default ⟨9/10⟩ "MEME" "MINT" envC7 0).1 =
      .ok { signature := "SIG", entry_price := 2000, amount := 500000,
            size_usd := 1000, position_id := 1 } ∧
    containsKeyAssoc "MEME"
      (execute_buy rmS2 ExecutionConfig.default ⟨9/10⟩ "MEME" "MINT" envC7 0).2.1.positions
      = true ∧
    (execute_buy rmS2 ExecutionConfig.default ⟨9/10⟩ "MEME" "MINT" envC7 0).2.2 =
      [ DbEffect.insertPosition "MEME" (some "MINT") 2000 1000 (9/10),
        DbEffect.insertTrade "buy" "MEME" 2000 1000 (some "SIG") (some 1) ] := by
  exact ⟨by with_unfolding_all decide, by with_unfolding_all rfl,
    by with_unfolding_all rfl, by with_unfolding_all rfl, by with_unfolding_all rfl⟩

/-- Looking up a key just inserted yields the inserted position. -/
theorem lookupAssoc_insertAssoc_self (k : String) (v : Position)
    (l : List (String × Position)) :
    lookupAssoc k (insertAssoc k v l) = some v := by
  induction l with
  | nil => simp [insertAssoc, lookupAssoc]
  | cons hd tl ih =>
    rcases hd with ⟨k', v'⟩
    by_cases h : k' = k
    · simp [insertAssoc, h, lookupAssoc]
    · simp [insertAssoc, h, lookupAssoc, ih]

/-- Inserting one key leaves the bindings of every other key unchanged. -/
theorem lookupAssoc_insertAssoc_ne (k : String) (v : Position)
    (l : List (String × Position)) (s : String) (h : s ≠ k) :
    lookupAssoc s (insertAssoc k v l) = lookupAssoc s l := by
  induction l with
  | nil => simp [insertAssoc, lookupAssoc, Ne.symm h]
  | cons hd tl ih =>
    rcases hd with ⟨k', v'⟩
    by_cases hk : k' = k
    · subst hk
      simp [insertAssoc, lookupAssoc, Ne.symm h]
    · simp [insertAssoc, hk, lookupAssoc, ih]

/-- Inserting a key that is already bound replaces the binding in place: the
map size does not change. -/
theorem length_insertAssoc_of_contains (k : String) (v : Position)
    (l : List (String × Position)) (h : containsKeyAssoc k l = true) :
    (insertAssoc k v l).length = l.length := by
  induction l with
  | nil => simp [containsKeyAssoc, lookupAssoc] at h
  | cons hd tl ih =>
    rcases hd with ⟨k', v'⟩
    by_cases hk : k' = k
    · simp [insertAssoc, hk]
    · have h' : containsKeyAssoc k tl = true := by
        simpa [containsKeyAssoc, lookupAssoc, hk] using h
      simp [insertAssoc, hk, ih h']

/-- C9: RiskManager::open_position never fails and performs no validation:
for every symbol, entry price and size it returns Ok, unconditionally
subtracts the size from available capital (which may therefore go negative),
and inserts the fresh position under the symbol; a pre-existing position
under the same symbol is silently replaced in place (same map size) with no
capital restored, and all other instruments keep their bindings. -/
theorem open_position_spec (rm : RiskManager) (sym : String) (price size : ℚ)
    (now : ℕ) :
    rm.open_position sym price size now =
      .ok { rm with
            portfolio := { rm.portfolio with
                           available_capital := rm.portfolio.available_capital - size }
            positions := insertAssoc sym (Position.new sym price size now) rm.positions } ∧
    lookupAssoc sym (insertAssoc sym (Position.new sym price size now) rm.positions) =
      some (Position.new sym price size now) ∧
    (∀ s, s ≠ sym →
      lookupAssoc s (insertAssoc sym (Position.new sym price size now) rm.positions) =
        lookupAssoc s rm.positions) ∧
    (containsKeyAssoc sym rm.positions = true →
      (insertAssoc sym (Position.new sym price size now) rm.positions).length =
        rm.positions.length) :=
  ⟨rfl,
   lookupAssoc_insertAssoc_self sym (Position.new sym price size now) rm.positions,
   fun s hs => lookupAssoc_insertAssoc_ne sym (Position.new sym price size now)
     rm.positions s hs,
   fun h => length_insertAssoc_of_contains sym (Position.new sym price size now)
     rm.positions h⟩

/-- Witness for C9: opening a 500 USD position on SOL with only 100 USD
available succeeds, leaves the available capital negative (-400), replaces
the existing SOL position without growing the map, and leaves other symbols
unbound. -/
theorem open_position_spec_witness :
    rm9.open_position "SOL" 2 500 7 =
      .ok { rm9 with
            portfolio := { rm9.portfolio with
                           available_capital := rm9.portfolio.available_capital - 500 }
            positions := insertAssoc "SOL" (Position.new "SOL" 2 500 7) rm9.positions } ∧
    lookupAssoc "X" (insertAssoc "SOL" (Position.new "SOL" 2 500 7) rm9.positions) =
      lookupAssoc "X" rm9.positions ∧
    (insertAssoc "SOL" (Position.new "SOL" 2 500 7) rm9.positions).length =
      rm9.positions.length ∧
    rm9.portfolio.available_capital - 500 < 0 :=
  ⟨(open_position_spec rm9 "SOL" 2 500 7).1,
   (open_position_spec rm9 "SOL" 2 500 7).2.2.1 "X" (by with_unfolding_all decide),
   (open_position_spec rm9 "SOL" 2 500 7).2.2.2 (by with_unfolding_all decide),
   by with_unfolding_all decide⟩

/-- C10: a close with realized pnl exactly 0 counts as a loss. For every
position found in the map, close_position returns the realized pnl
(exit - entry) * (size / entry), increments total_trades and exactly one of
winning_trades / losing_trades; winning_trades is incremented exactly when
the pnl is strictly positive, and otherwise (including pnl = 0, in
particular whenever the exit price equals the entry price) losing_trades and
consecutive_losses are incremented, consecutive_wins is reset to 0 and
last_loss_time is set, arming the loss-streak cooldown. -/
theorem close_position_spec (rm : RiskManager) (sym : String) (pos : Position)
    (exit_price : ℚ) (now : ℕ)
    (hpos : lookupAssoc sym rm.positions = some pos) :
    ∃ rm' : RiskManager,
      rm.close_position sym exit_price now =
        .ok (rm', (exit_price - pos.entry_price) * (pos.size / pos.entry_price)) ∧
      rm'.portfolio.total_trades = rm.portfolio.total_trades + 1 ∧
      rm'.portfolio.winning_trades + rm'.portfolio.losing_trades =
        rm.portfolio.winning_trades + rm.portfolio.losing_trades + 1 ∧
      (0 < (exit_price - pos.entry_price) * (pos.size / pos.entry_price) ↔
        rm'.portfolio.winning_trades = rm.portfolio.winning_trades + 1) ∧
      (¬ 0 < (exit_price - pos.entry_price) * (pos.size / pos.entry_price) →
        rm'.portfolio.losing_trades = rm.portfolio.losing_trades + 1 ∧
        rm'.portfolio.consecutive_losses = rm.portfolio.consecutive_losses + 1 ∧
        rm'.portfolio.consecutive_wins = 0 ∧
        rm'.portfolio.last_loss_time = some now) ∧
      (exit_price = pos.entry_price →
        (exit_price - pos.entry_price) * (pos.size / pos.entry_price) = 0) := by
  simp only [RiskManager.close_position, hpos]
  by_cases hw : 0 < (exit_price - pos.entry_price) * (pos.size / pos.entry_price)
  · rw [if_pos hw]
    split
    · refine ⟨_, rfl, by simp, by simp_arith, iff_of_true hw (by simp), fun hcon => absurd hw hcon, ?_⟩
      intro h
      rw [h]
      simp
    · refine ⟨_, rfl, by simp, by simp_arith, iff_of_true hw (by simp), fun hcon => absurd hw hcon, ?_⟩
      intro h
      rw [h]
      simp
  · rw [if_neg hw]
    split
    · refine ⟨_, rfl, by simp, by simp_arith, iff_of_false hw (by simp), fun _ => ⟨by simp, by simp, by simp, by simp⟩, ?_⟩
      intro h
      rw [h]
      simp
    · refine ⟨_, rfl, by simp, by simp_arith, iff_of_false hw (by simp), fun _ => ⟨by simp, by simp, by simp, by simp⟩, ?_⟩
      intro h
      rw [h]
      simp

/-- Witness for C10: closing a SOL position entered at 100 at the exit price
100 (zero pnl) counts as a loss: losing_trades and consecutive_losses go up,
consecutive_wins resets and last_loss_time is set to the close time. -/
theorem close_position_spec_witness :
    ∃ rm' : RiskManager,
      rmTOK.close_position "TOK" 100 5 =
        .ok (rm', (100 - (Position.new "TOK" 100 500 0).entry_price) *
              ((Position.new "TOK" 100 500 0).size / (Position.new "TOK" 100 500 0).entry_price)) ∧
      rm'.portfolio.total_trades = rmTOK.portfolio.total_trades + 1 ∧
      rm'.portfolio.losing_trades = rmTOK.portfolio.losing_trades + 1 ∧
      rm'.portfolio.consecutive_losses = rmTOK.portfolio.consecutive_losses + 1 ∧
      rm'.portfolio.consecutive_wins = 0 ∧
      rm'.portfolio.last_loss_time = some 5 := by
  obtain ⟨rm', h1, h2, _h3, _h4, h5, _h6⟩ :=
    close_position_spec rmTOK "TOK" (Position.new "TOK" 100 500 0) 100 5
      (by with_unfolding_all decide)
  obtain ⟨l1, l2, l3, l4⟩ := h5 (by with_unfolding_all decide)
  exact ⟨rm', h1, h2, l1, l2, l3, l4⟩
